import Mathlib

/-!
Verification development for the alarm-semaphore repository.

The repository holds two C variants of a one-producer / one-consumer alarm
scheduler: `src/new_alarm_cond.c` (the primary variant, structure `alarm_t`
without a `replaced` field) and `src/New_Alarm_Cond.c` (a variant whose
`alarm_t` adds a `replaced` field and whose cancel branch signals the
condition variable).  This file embeds both variants shallowly:

* the linked list `alarm_list` becomes a `List`;
* `alarm_insert`, `find_and_replace`, `get_alarm_at`, `message_id_exists`
  and `main`'s cancel branch become pure functions on that list;
* the producer/consumer protocol of `new_alarm_cond.c` (`main` +
  `alarm_thread`, with `current_alarm` and `pthread_cond_signal`) becomes an
  explicit step function on a system state, one step per atomic critical
  section, with an event `tick` advancing the clock;
* the `sscanf` conversion `"%d Message(%d) %128[^\n]"` of `main` becomes a
  character-list parser, together with the byte counts the conversions and
  `strcpy` store into the 128-byte `message` field.

C's `int` and `time_t` are modelled as `Int` (no claim here involves
overflow).  `get_alarm_at` in both variants has no `return` statement on the
path where no list entry matches, so the value the caller reads there is
unspecified in C; the embedding makes this explicit with the `CRet.undef`
constructor, and callers are parameterised by `g : Option alarm_t`, the
value the caller's read of the unspecified return yields (`none` = the read
happens to be `NULL`, `some a` = it happens to be a pointer to some
`alarm_t` object `a`).
-/

/-- One alarm entry of `new_alarm_cond.c` (`struct alarm_tag`): the `link`
pointer is represented by the position in the enclosing `List`. -/
structure alarm_t where
  seconds : Int
  message_number : Int
  cancellable : Int
  time : Int
  message : String
deriving Repr, DecidableEq

/-- One alarm entry of `New_Alarm_Cond.c` (`struct alarm_tag` there): same
fields plus the `replaced` flag. -/
structure alarm2_t where
  seconds : Int
  message_number : Int
  cancellable : Int
  replaced : Int
  time : Int
  message : String
deriving Repr, DecidableEq

/-- Result of running a C function body that returns a pointer: either a
`return` statement was executed with value `a`, or control fell off the end
of the function, in which case the value the caller reads is unspecified. -/
inductive CRet (α : Type) where
  | ret (a : α) : CRet α
  | undef : CRet α
deriving Repr, DecidableEq

/-- The value a caller reads from a `CRet`: a `ret` is the returned pointer,
an `undef` reads as the unspecified value `g` fixed for the execution. -/
def readPtr {α : Type} (g : Option α) : CRet α → Option α
  | CRet.ret a => some a
  | CRet.undef => g

/-- `get_alarm_at` of `new_alarm_cond.c` lines 36-43: walks `alarm_list`
and returns the first entry whose `message_number` equals `m_id`; when no
entry matches, the loop finishes and control falls off the end of the
function with no `return`, which the model records as `CRet.undef`. -/
def get_alarm_at : List alarm_t → Int → CRet alarm_t
  | [], _ => CRet.undef
  | x :: xs, m => if x.message_number = m then CRet.ret x else get_alarm_at xs m

/-- `get_alarm_at` of `New_Alarm_Cond.c` lines 42-49 (same body, over the
variant's entry type). -/
def get_alarm_at2 : List alarm2_t → Int → CRet alarm2_t
  | [], _ => CRet.undef
  | x :: xs, m => if x.message_number = m then CRet.ret x else get_alarm_at2 xs m

/-- `message_id_exists` of `new_alarm_cond.c` lines 45-53: 1 when the
pointer read from `get_alarm_at` is non-NULL, else 0; on the no-match path
the comparison is against the unspecified value `g`. -/
def message_id_exists (g : Option alarm_t) (l : List alarm_t) (m : Int) : Int :=
  match readPtr g (get_alarm_at l m) with
  | some _ => 1
  | none => 0

/-- In-place mutation through the pointer returned by `get_alarm_at`: the
first list entry with `message_number = m` is rewritten by `f`; entries
before it (which do not match) and after it are untouched. -/
def replace_first (l : List alarm_t) (m : Int) (f : alarm_t → alarm_t) : List alarm_t :=
  match l with
  | [] => []
  | x :: xs => if x.message_number = m then f x :: xs else x :: replace_first xs m f

/-- Same in-place mutation for the `New_Alarm_Cond.c` entry type. -/
def replace_first2 (l : List alarm2_t) (m : Int) (f : alarm2_t → alarm2_t) : List alarm2_t :=
  match l with
  | [] => []
  | x :: xs => if x.message_number = m then f x :: xs else x :: replace_first2 xs m f

/-- `find_and_replace` of `new_alarm_cond.c` lines 55-71: looks up the entry
with `new_alarm->message_number` and overwrites, through the pointer, its
`seconds`, its `time` (recomputed as `time(NULL) + seconds`) and its
`message` (by `strcpy`).  Only the `seconds`, `message_number` and `message`
fields of the argument are read, as in the source, where the caller passes a
freshly parsed request whose `time` field was never set.  The function
contains no `pthread_cond_signal` call and leaves `current_alarm` alone. -/
def find_and_replace (na : alarm_t) (now : Int) (l : List alarm_t) : List alarm_t :=
  replace_first l na.message_number (fun old =>
    { old with seconds := na.seconds, time := now + na.seconds, message := na.message })

/-- `find_and_replace` of `New_Alarm_Cond.c` lines 61-82: as in the other
variant, and additionally sets `replaced = 1`.  It too contains no
`pthread_cond_signal` call. -/
def find_and_replace2 (na : alarm2_t) (now : Int) (l : List alarm2_t) : List alarm2_t :=
  replace_first2 l na.message_number (fun old =>
    { old with seconds := na.seconds, time := now + na.seconds,
               replaced := 1, message := na.message })

/-- The list-threading loop of `alarm_insert` (`new_alarm_cond.c` lines
92-111): the new entry is linked in before the first entry whose
`message_number` is `>=` its own, or at the tail when none is. -/
def insert_sorted (a : alarm_t) : List alarm_t → List alarm_t
  | [] => [a]
  | x :: xs =>
      if a.message_number ≤ x.message_number then a :: x :: xs
      else x :: insert_sorted a xs

/-- Outcome of `alarm_insert`: the new `alarm_list`, the new value of the
global `current_alarm`, and whether `pthread_cond_signal` was called. -/
structure InsertResult where
  list : List alarm_t
  current_alarm : Int
  signalled : Bool
deriving Repr, DecidableEq

/-- `alarm_insert` of `new_alarm_cond.c` lines 81-131: inserts in
`message_number` order, then signals the alarm thread exactly when
`current_alarm == 0 || alarm->time < current_alarm`, in that case also
setting `current_alarm = alarm->time`. -/
def alarm_insert (a : alarm_t) (l : List alarm_t) (cur : Int) : InsertResult :=
  let l2 := insert_sorted a l
  if cur = 0 ∨ a.time < cur then
    { list := l2, current_alarm := a.time, signalled := true }
  else
    { list := l2, current_alarm := cur, signalled := false }

/-- Outcome of `main`'s cancel branch: which message was printed, the new
list, and whether `pthread_cond_signal` was called. -/
inductive CancelOutcome where
  | notFound
  | alreadyCancelled
  | cancelled
deriving Repr, DecidableEq

/-- Result record of a cancel branch over entry type `α`. -/
structure CancelResult (α : Type) where
  outcome : CancelOutcome
  list : List α
  signalled : Bool
deriving Repr, DecidableEq

/-- The cancel branch of `main` in `new_alarm_cond.c` lines 240-253:
`message_id_exists == 0` prints the not-found error; otherwise the entry is
fetched again and either the already-cancelled error is printed
(`cancellable > 0`) or `cancellable` is incremented.  Both lookups reduce to
the same `get_alarm_at` read, so the model matches on it once; on the
no-match path both follow the unspecified read `g`.  When `g` points at an
object outside the list the source would mutate that object; the model only
needs the branch taken, which depends on `g`'s `cancellable` field alone.
No `pthread_cond_signal` call occurs anywhere in this branch. -/
def cancel_op (g : Option alarm_t) (l : List alarm_t) (m : Int) : CancelResult alarm_t :=
  match readPtr g (get_alarm_at l m) with
  | none => { outcome := CancelOutcome.notFound, list := l, signalled := false }
  | some a =>
      if a.cancellable > 0 then
        { outcome := CancelOutcome.alreadyCancelled, list := l, signalled := false }
      else
        { outcome := CancelOutcome.cancelled,
          list := replace_first l m (fun x => { x with cancellable := x.cancellable + 1 }),
          signalled := false }

/-- The cancel branch of `main` in `New_Alarm_Cond.c` lines 258-272: same
structure, but a successful cancel calls `pthread_cond_signal` (line 268). -/
def cancel_op2 (g : Option alarm2_t) (l : List alarm2_t) (m : Int) : CancelResult alarm2_t :=
  match readPtr g (get_alarm_at2 l m) with
  | none => { outcome := CancelOutcome.notFound, list := l, signalled := false }
  | some a =>
      if a.cancellable > 0 then
        { outcome := CancelOutcome.alreadyCancelled, list := l, signalled := false }
      else
        { outcome := CancelOutcome.cancelled,
          list := replace_first2 l m (fun x => { x with cancellable := x.cancellable + 1 }),
          signalled := true }

/-- Control point of the alarm thread of `new_alarm_cond.c` between two
blocking points: `idle` is the top of the outer loop (the thread is blocked
in `pthread_cond_wait` when the list is empty, or about to dequeue the
head), `waiting a` is the inner loop, blocked in `pthread_cond_timedwait`
holding the dequeued entry `a` with deadline `a.time`. -/
inductive Phase where
  | idle
  | waiting (a : alarm_t)
deriving Repr, DecidableEq

/-- State of the whole `new_alarm_cond.c` process: the shared list and
`current_alarm` global, the alarm thread's control point, the clock
(`time(NULL)` in seconds), the sequence of entries the thread has emitted
(its `printf "(%d) %s"` line 186 — the sink), and how many
`pthread_cond_signal` calls occurred. -/
structure SysState where
  alarm_list : List alarm_t
  current_alarm : Int
  phase : Phase
  now : Int
  fired : List alarm_t
  sigCount : Nat
deriving Repr, DecidableEq

/-- The entry `main` builds for an insert command (lines 206-222): parsed
`seconds` and `message_number`, `cancellable = 0`, `time = time(NULL) +
seconds`. -/
def mkAlarm (sec id : Int) (msg : String) (now : Int) : alarm_t :=
  { seconds := sec, message_number := id, cancellable := 0, time := now + sec, message := msg }

/-- Atomic events of the interleaved execution of `new_alarm_cond.c`.  Each
producer event is one critical section of `main`; `take` and `wake` are the
alarm thread's transitions between blocking points; `tick` advances the
clock by one second. -/
inductive Event where
  | submit (sec id : Int) (msg : String)
  | cancel (id : Int)
  | take
  | wake
  | tick
deriving Repr, DecidableEq

/-- One atomic step of `new_alarm_cond.c`, parameterised by the unspecified
read `g` (see `readPtr`).

* `submit` (`main` lines 211-238): commands failing the guard
  `seconds > 0 && message_number > 0` are rejected with no state change;
  when `message_id_exists` is 0 the entry is inserted by `alarm_insert`
  (which may signal and update `current_alarm`), otherwise
  `find_and_replace` mutates the existing entry in place with no signal.
* `cancel` (`main` lines 240-253): `cancel_op`; no signal in this variant.
* `take` (`alarm_thread` lines 163-170): only at the top of the loop with a
  nonempty list; the head is unlinked; if its time is still in the future
  the thread sets `current_alarm` to it and enters `timedwait`, otherwise it
  is expired and fired at once, and the loop restarts with
  `current_alarm = 0` (line 157).
* `wake` (`alarm_thread` lines 171-188): leaving `timedwait`; when
  `current_alarm` no longer equals the held entry's time, the entry is
  re-inserted through `alarm_insert` and the loop restarts with
  `current_alarm = 0`; otherwise, once the deadline has passed, the wait
  timed out and the entry is fired.  A wake with `current_alarm` unchanged
  and the deadline not reached re-enters the wait (no state change), so it
  is not a step. -/
def step (g : Option alarm_t) (s : SysState) : Event → Option SysState
  | Event.tick => some { s with now := s.now + 1 }
  | Event.submit sec id msg =>
      if 0 < sec ∧ 0 < id then
        if message_id_exists g s.alarm_list id = 0 then
          let r := alarm_insert (mkAlarm sec id msg s.now) s.alarm_list s.current_alarm
          some { s with alarm_list := r.list, current_alarm := r.current_alarm,
                        sigCount := s.sigCount + (if r.signalled then 1 else 0) }
        else
          some { s with alarm_list := find_and_replace (mkAlarm sec id msg s.now) s.now s.alarm_list }
      else
        some s
  | Event.cancel id =>
      let r := cancel_op g s.alarm_list id
      some { s with alarm_list := r.list,
                    sigCount := s.sigCount + (if r.signalled then 1 else 0) }
  | Event.take =>
      match s.phase, s.alarm_list with
      | Phase.idle, a :: rest =>
          if a.time > s.now then
            some { s with alarm_list := rest, phase := Phase.waiting a, current_alarm := a.time }
          else
            some { s with alarm_list := rest, fired := s.fired ++ [a], current_alarm := 0 }
      | _, _ => none
  | Event.wake =>
      match s.phase with
      | Phase.waiting a =>
          if s.current_alarm ≠ a.time then
            let r := alarm_insert a s.alarm_list s.current_alarm
            some { s with alarm_list := r.list, phase := Phase.idle, current_alarm := 0,
                          sigCount := s.sigCount + (if r.signalled then 1 else 0) }
          else if a.time ≤ s.now then
            some { s with fired := s.fired ++ [a], phase := Phase.idle, current_alarm := 0 }
          else none
      | Phase.idle => none

/-- Run a sequence of events from a state; `none` when some event is not
enabled. -/
def run (g : Option alarm_t) : SysState → List Event → Option SysState
  | s, [] => some s
  | s, e :: es =>
      match step g s e with
      | none => none
      | some s2 => run g s2 es

/-- Process start: empty list, `current_alarm = 0`, alarm thread at the top
of its loop, clock at 0, nothing fired. -/
def initState : SysState :=
  { alarm_list := [], current_alarm := 0, phase := Phase.idle, now := 0,
    fired := [], sigCount := 0 }

/-- The ordering the claims assert for the registry: ascending `(due_at,
id)` — each earlier entry is due strictly before each later one, or at the
same time with a `<=` id. -/
def dueIdOrdered (l : List alarm_t) : Prop :=
  List.Pairwise
    (fun a b => a.time < b.time ∨ (a.time = b.time ∧ a.message_number ≤ b.message_number)) l

/-- The ordering the source actually maintains: ascending `message_number`. -/
def idOrdered (l : List alarm_t) : Prop :=
  List.Pairwise (fun a b => a.message_number ≤ b.message_number) l

/-- Whitespace for `sscanf`: a `%d` conversion and a blank in the format
string skip any run of white-space input characters. -/
def isWs (c : Char) : Bool := c == ' ' || c == '\t' || c == '\n'

/-- Skip white space in the input, as a blank in an `sscanf` format does. -/
def skipWs (l : List Char) : List Char := l.dropWhile isWs

/-- The `%d` conversion of `sscanf`: skip white space, optional sign, then
at least one decimal digit; yields the value and the rest of the input. -/
def scanIntC (l : List Char) : Option (Int × List Char) :=
  let l1 := skipWs l
  match l1 with
  | '-' :: r =>
      let ds := r.takeWhile Char.isDigit
      if ds.isEmpty then none
      else some (-(Int.ofNat (ds.foldl (fun a c => a * 10 + (c.toNat - 48)) 0)), r.drop ds.length)
  | _ =>
      let ds := l1.takeWhile Char.isDigit
      if ds.isEmpty then none
      else some (Int.ofNat (ds.foldl (fun a c => a * 10 + (c.toNat - 48)) 0), l1.drop ds.length)

/-- Ordinary characters in an `sscanf` format: each must match the next
input character exactly. -/
def scanLits : List Char → List Char → Option (List Char)
  | [], rest => some rest
  | c :: cs, rest =>
      match rest with
      | [] => none
      | r :: rs => if r = c then scanLits cs rs else none

/-- The `%128[^\n]` conversion of `sscanf`: match up to 128 input characters
other than a newline (at least one, else the conversion fails); yields the
matched characters and the rest of the input. -/
def scanSetNotNl (width : Nat) (l : List Char) : Option (List Char × List Char) :=
  let t := (l.takeWhile (fun c => c ≠ '\n')).take width
  if t.isEmpty then none else some (t, l.drop t.length)

/-- Bytes a successful string conversion (or `strcpy`) stores into its
destination: the matched characters plus the terminating NUL. -/
def storedBytes (matched : List Char) : Nat := matched.length + 1

/-- `sizeof(((alarm_t *)0)->message)`: the `message` field of `alarm_t` in
both source files is `char message[128]`. -/
def MESSAGE_CAP : Nat := 128

/-- The insert-command parse of `main` (`new_alarm_cond.c` lines 211-212):
`sscanf(line, "%d Message(%d) %128[^\n]", &seconds, &message_number,
message)`, successful when all three conversions match. -/
def parse_insert (line : List Char) : Option (Int × Int × List Char) :=
  match scanIntC line with
  | none => none
  | some (sec, r1) =>
      match scanLits ("Message(".toList) (skipWs r1) with
      | none => none
      | some r2 =>
          match scanIntC r2 with
          | none => none
          | some (id, r3) =>
              match scanLits (")".toList) r3 with
              | none => none
              | some r4 =>
                  match scanSetNotNl 128 (skipWs r4) with
                  | none => none
                  | some (msg, _) => some (sec, id, msg)

instance : DecidableRel (fun a b : alarm_t => a.message_number ≤ b.message_number) :=
  fun a b => Int.decLe a.message_number b.message_number

instance : DecidableRel (fun a b : alarm_t =>
    a.time < b.time ∨ (a.time = b.time ∧ a.message_number ≤ b.message_number)) :=
  fun a b => inferInstanceAs
    (Decidable (a.time < b.time ∨ (a.time = b.time ∧ a.message_number ≤ b.message_number)))

instance (l : List alarm_t) : Decidable (idOrdered l) :=
  inferInstanceAs (Decidable (List.Pairwise _ l))

instance (l : List alarm_t) : Decidable (dueIdOrdered l) :=
  inferInstanceAs (Decidable (List.Pairwise _ l))

/-- When no entry of the list matches, `get_alarm_at`'s loop runs out and
control falls off the end of the function. -/
theorem get_alarm_at_eq_undef (l : List alarm_t) (m : Int)
    (h : ∀ y ∈ l, y.message_number ≠ m) : get_alarm_at l m = CRet.undef := by
  induction l with
  | nil => rfl
  | cons x xs ih =>
      have hx : x.message_number ≠ m := h x (List.mem_cons_self x xs)
      simp only [get_alarm_at, if_neg hx]
      exact ih (fun y hy => h y (List.mem_cons_of_mem x hy))

/-- `get_alarm_at` returns the first matching entry. -/
theorem get_alarm_at_append_ret (l1 l2 : List alarm_t) (x : alarm_t) (m : Int)
    (h1 : ∀ y ∈ l1, y.message_number ≠ m) (hx : x.message_number = m) :
    get_alarm_at (l1 ++ x :: l2) m = CRet.ret x := by
  induction l1 with
  | nil => simp [get_alarm_at, hx]
  | cons y ys ih =>
      have hy : y.message_number ≠ m := h1 y (List.mem_cons_self y ys)
      simp only [List.cons_append, get_alarm_at, if_neg hy]
      exact ih (fun z hz => h1 z (List.mem_cons_of_mem y hz))

/-- Variant-2 counterpart of `get_alarm_at_append_ret`. -/
theorem get_alarm_at2_append_ret (l1 l2 : List alarm2_t) (x : alarm2_t) (m : Int)
    (h1 : ∀ y ∈ l1, y.message_number ≠ m) (hx : x.message_number = m) :
    get_alarm_at2 (l1 ++ x :: l2) m = CRet.ret x := by
  induction l1 with
  | nil => simp [get_alarm_at2, hx]
  | cons y ys ih =>
      have hy : y.message_number ≠ m := h1 y (List.mem_cons_self y ys)
      simp only [List.cons_append, get_alarm_at2, if_neg hy]
      exact ih (fun z hz => h1 z (List.mem_cons_of_mem y hz))

/-- An in-place write through the pointer to the first match rewrites that
entry and nothing else. -/
theorem replace_first_append (l1 l2 : List alarm_t) (x : alarm_t) (m : Int)
    (f : alarm_t → alarm_t)
    (h1 : ∀ y ∈ l1, y.message_number ≠ m) (hx : x.message_number = m) :
    replace_first (l1 ++ x :: l2) m f = l1 ++ f x :: l2 := by
  induction l1 with
  | nil => simp [replace_first, hx]
  | cons y ys ih =>
      have hy : y.message_number ≠ m := h1 y (List.mem_cons_self y ys)
      simp only [List.cons_append, replace_first, if_neg hy]
      exact congrArg (fun t => y :: t) (ih (fun z hz => h1 z (List.mem_cons_of_mem y hz)))

/-- Variant-2 counterpart of `replace_first_append`. -/
theorem replace_first2_append (l1 l2 : List alarm2_t) (x : alarm2_t) (m : Int)
    (f : alarm2_t → alarm2_t)
    (h1 : ∀ y ∈ l1, y.message_number ≠ m) (hx : x.message_number = m) :
    replace_first2 (l1 ++ x :: l2) m f = l1 ++ f x :: l2 := by
  induction l1 with
  | nil => simp [replace_first2, hx]
  | cons y ys ih =>
      have hy : y.message_number ≠ m := h1 y (List.mem_cons_self y ys)
      simp only [List.cons_append, replace_first2, if_neg hy]
      exact congrArg (fun t => y :: t) (ih (fun z hz => h1 z (List.mem_cons_of_mem y hz)))

/-- Membership in the insertion result. -/
theorem mem_insert_sorted (b a : alarm_t) (l : List alarm_t) :
    b ∈ insert_sorted a l ↔ b = a ∨ b ∈ l := by
  induction l with
  | nil => simp [insert_sorted]
  | cons x xs ih =>
      simp only [insert_sorted]
      split
      · simp [List.mem_cons]
      · simp only [List.mem_cons, ih]
        tauto

/-- The inserted entry is in the insertion result. -/
theorem mem_insert_sorted_self (a : alarm_t) (l : List alarm_t) :
    a ∈ insert_sorted a l :=
  (mem_insert_sorted a a l).mpr (Or.inl rfl)

/-- `alarm_insert`'s threading loop keeps the list ordered by
`message_number`. -/
theorem idOrdered_insert_sorted (a : alarm_t) (l : List alarm_t) (h : idOrdered l) :
    idOrdered (insert_sorted a l) := by
  induction l with
  | nil => simp [insert_sorted, idOrdered]
  | cons x xs ih =>
      have hx := (List.pairwise_cons.mp h).1
      have hxs := (List.pairwise_cons.mp h).2
      by_cases hle : a.message_number ≤ x.message_number
      · simp only [insert_sorted, if_pos hle]
        refine List.pairwise_cons.mpr ⟨?_, h⟩
        intro b hb
        rcases List.mem_cons.mp hb with hb | hb
        · exact hb ▸ hle
        · exact le_trans hle (hx b hb)
      · simp only [insert_sorted, if_neg hle]
        refine List.pairwise_cons.mpr ⟨?_, ih hxs⟩
        intro b hb
        rcases (mem_insert_sorted b a xs).mp hb with hb | hb
        · subst hb; omega
        · exact hx b hb

/-- A rewrite that keeps `message_number` keeps the list's id sequence. -/
theorem replace_first_map (l : List alarm_t) (m : Int) (f : alarm_t → alarm_t)
    (hf : ∀ x, (f x).message_number = x.message_number) :
    (replace_first l m f).map alarm_t.message_number = l.map alarm_t.message_number := by
  induction l with
  | nil => rfl
  | cons x xs ih =>
      simp only [replace_first]
      split
      · simp [hf]
      · simp [ih]

/-- A rewrite that keeps `message_number` keeps the `message_number`
ordering. -/
theorem idOrdered_replace_first (l : List alarm_t) (m : Int) (f : alarm_t → alarm_t)
    (hf : ∀ x, (f x).message_number = x.message_number) (h : idOrdered l) :
    idOrdered (replace_first l m f) := by
  have hmap : idOrdered (replace_first l m f) ↔
      List.Pairwise (fun p q => p ≤ q) ((replace_first l m f).map alarm_t.message_number) := by
    rw [List.pairwise_map]; rfl
  have hmap2 : idOrdered l ↔
      List.Pairwise (fun p q => p ≤ q) (l.map alarm_t.message_number) := by
    rw [List.pairwise_map]; rfl
  rw [hmap, replace_first_map l m f hf]
  exact hmap2.mp h

/-- The branch of `alarm_insert` taken never changes the list it builds. -/
theorem alarm_insert_list (a : alarm_t) (l : List alarm_t) (cur : Int) :
    (alarm_insert a l cur).list = insert_sorted a l := by
  unfold alarm_insert
  split <;> rfl

/-- The `alarm_list` produced by inserting id 1 due at 10 and then id 2 due
at 1 into an empty registry at time 0 (both entries pending, no take yet). -/
def twoInsertList : List alarm_t :=
  (alarm_insert (mkAlarm 1 2 ("B") 0)
    (alarm_insert (mkAlarm 10 1 ("A") 0) [] 0).list
    (alarm_insert (mkAlarm 10 1 ("A") 0) [] 0).current_alarm).list

/-- Claim C1, counterexample: after inserting id 1 with delay 10 and then
id 2 with delay 1 (at time 0), the registry reads
`[(due 10, id 1), (due 1, id 2)]` — an adjacent pair with the later due
time first — so the collection is not ordered by `(due_at, id)` as the
claim states; it is ordered by id alone.  `alarm_insert` compares only
`message_number`, never `time`. -/
theorem insert_orders_by_id_not_by_due_time :
    twoInsertList.map (fun a => (a.time, a.message_number)) = [(10, 1), (1, 2)] ∧
    decide (dueIdOrdered twoInsertList) = false ∧
    decide (idOrdered twoInsertList) = true := by
  refine ⟨by decide, by decide, by decide⟩

/-- Claim C1, amended: after every insert and every replace the registry is
totally ordered ascending by `message_number` (the id) — not by
`(due_at, id)`.  `alarm_insert` links the new entry before the first entry
with a `>=` id, and `find_and_replace` rewrites an entry in place without
changing its id, so both preserve the id ordering. -/
theorem insert_and_replace_preserve_id_order (a na : alarm_t) (now cur : Int)
    (l : List alarm_t) (h : idOrdered l) :
    idOrdered (alarm_insert a l cur).list ∧ idOrdered (find_and_replace na now l) := by
  constructor
  · rw [alarm_insert_list]
    exact idOrdered_insert_sorted a l h
  · unfold find_and_replace
    exact idOrdered_replace_first l na.message_number _ (fun x => rfl) h

/-- Claim C1, witness: the amended ordering theorem applied to a concrete
one-entry registry. -/
theorem insert_and_replace_preserve_id_order_witness :
    idOrdered (alarm_insert (mkAlarm 1 2 ("B") 0) [mkAlarm 10 1 ("A") 0] 10).list ∧
    idOrdered (find_and_replace (mkAlarm 1 2 ("B") 0) 0 [mkAlarm 10 1 ("A") 0]) :=
  insert_and_replace_preserve_id_order (mkAlarm 1 2 ("B") 0) (mkAlarm 1 2 ("B") 0) 0 10
    [mkAlarm 10 1 ("A") 0] (by decide)

/-- Claim C4: the alarm thread of `new_alarm_cond.c` never reads the
`cancellable` flag (`cancel_alarm` is an empty TODO), so a cancelled entry
is fired anyway.  Submit id 1 with delay 2, cancel it before its due time,
let the clock reach 2: the thread's timed wait expires and the entry —
still flagged `cancellable = 1` — is emitted to the sink, which the claim
says must never happen. -/
theorem cancelled_entry_still_fires :
    (run none initState
        [Event.submit 2 1 ("hello"), Event.cancel 1, Event.take, Event.tick, Event.tick,
         Event.wake]).map
      (fun s => s.fired.map (fun a => (a.message_number, a.cancellable))) =
    some [(1, 1)] := by decide

set_option maxRecDepth 4000 in
/-- Claim C9: the parse `sscanf(line, "%d Message(%d) %128[^\n]", ...)`
accepts up to 128 message characters and then stores a terminating NUL, so
a line whose message part is 128 bytes long makes it store 129 bytes into
the 128-byte `message` field — one byte past its end — and
`find_and_replace`'s `strcpy` of that message copies the same 129 bytes.
The claim that no input line ever writes past the buffer is false. -/
theorem message_scan_overflows_buffer :
    parse_insert (("5 Message(1) ").toList ++ List.replicate 128 'x') =
      some (5, 1, List.replicate 128 'x') ∧
    storedBytes (List.replicate 128 'x') = 129 ∧
    MESSAGE_CAP < storedBytes (List.replicate 128 'x') := by
  refine ⟨by decide, by decide, by decide⟩

/-- Claim C10: on the no-match path `get_alarm_at` has no `return`
statement, so it does not return NULL — the caller reads an unspecified
value (`CRet.undef`), and `message_id_exists` on that path yields 1 or 0
depending on that unspecified value, not on list membership.  The matching
path does return the first matching entry. -/
theorem get_alarm_at_no_match_is_unspecified :
    get_alarm_at [] 1 = CRet.undef ∧
    get_alarm_at [⟨10, 1, 0, 10, ("A")⟩] 2 = CRet.undef ∧
    get_alarm_at [⟨10, 1, 0, 10, ("A")⟩] 1 = CRet.ret ⟨10, 1, 0, 10, ("A")⟩ ∧
    message_id_exists none [] 1 = 0 ∧
    message_id_exists (some ⟨3, 7, 1, 99, ("G")⟩) [] 1 = 1 := by
  refine ⟨rfl, by decide, by decide, rfl, rfl⟩

/-- Claim C7, counterexample: the not-found test `message_id_exists == 0`
reads the unspecified value left by `get_alarm_at`'s missing `return` (see
`get_alarm_at_no_match_is_unspecified`).  Under the reading where that
value is a pointer to an object whose `cancellable` is positive, a cancel
of id 1 against an empty registry reports already-cancelled, not
`NotFound`, so the unconditional `NotFound` of the claim does not hold on
the code. -/
theorem cancel_unknown_id_not_notfound_under_unspecified_read :
    (cancel_op (some ⟨3, 7, 1, 99, ("G")⟩) [] 1).outcome = CancelOutcome.alreadyCancelled ∧
    decide (CancelOutcome.alreadyCancelled = CancelOutcome.notFound) = false := by
  refine ⟨rfl, by decide⟩

/-- Claim C7, amended: provided the unspecified value read after
`get_alarm_at`'s missing no-match `return` happens to be NULL, the cancel
branch reports not-found for an unknown id; for a pending entry it reports
already-cancelled when `cancellable` is positive, leaving everything
unchanged, and otherwise sets the flag exactly once (0 to 1, never reset),
so a second cancel of the same id reports already-cancelled and changes
nothing — and no branch signals the condition variable. -/
theorem cancel_semantics_under_null_read
    (l l1 l2 : List alarm_t) (x : alarm_t) (m : Int) (g : Option alarm_t) :
    ((∀ y ∈ l, y.message_number ≠ m) →
        cancel_op none l m =
          { outcome := CancelOutcome.notFound, list := l, signalled := false }) ∧
    ((∀ y ∈ l1, y.message_number ≠ m) → x.message_number = m → 0 < x.cancellable →
        cancel_op g (l1 ++ x :: l2) m =
          { outcome := CancelOutcome.alreadyCancelled, list := l1 ++ x :: l2,
            signalled := false }) ∧
    ((∀ y ∈ l1, y.message_number ≠ m) → x.message_number = m → x.cancellable = 0 →
        cancel_op g (l1 ++ x :: l2) m =
          { outcome := CancelOutcome.cancelled,
            list := l1 ++ { x with cancellable := 1 } :: l2, signalled := false } ∧
        cancel_op g (l1 ++ { x with cancellable := 1 } :: l2) m =
          { outcome := CancelOutcome.alreadyCancelled,
            list := l1 ++ { x with cancellable := 1 } :: l2, signalled := false }) := by
  refine ⟨?_, ?_, ?_⟩
  · intro h
    unfold cancel_op
    rw [get_alarm_at_eq_undef l m h]
    rfl
  · intro h1 hx hc
    unfold cancel_op
    rw [get_alarm_at_append_ret l1 l2 x m h1 hx]
    simp only [readPtr]
    rw [if_pos hc]
  · intro h1 hx hc
    constructor
    · unfold cancel_op
      rw [get_alarm_at_append_ret l1 l2 x m h1 hx]
      simp only [readPtr]
      rw [if_neg (by omega), replace_first_append l1 l2 x m _ h1 hx]
      have h2 : x.cancellable + 1 = 1 := by omega
      rw [h2]
    · unfold cancel_op
      rw [get_alarm_at_append_ret l1 l2 ({ x with cancellable := 1 }) m h1 hx]
      simp only [readPtr]
      rw [if_pos (by decide)]

/-- Claim C7, witness: the amended cancel semantics at concrete inputs —
unknown id on the empty registry, an already-flagged entry, a fresh entry
cancelled once, and the same entry cancelled a second time. -/
theorem cancel_semantics_under_null_read_witness :
    cancel_op none [] 1 =
      { outcome := CancelOutcome.notFound, list := [], signalled := false } ∧
    cancel_op none [⟨2, 1, 3, 5, ("A")⟩] 1 =
      { outcome := CancelOutcome.alreadyCancelled, list := [⟨2, 1, 3, 5, ("A")⟩],
        signalled := false } ∧
    cancel_op none [⟨2, 1, 0, 5, ("A")⟩] 1 =
      { outcome := CancelOutcome.cancelled, list := [⟨2, 1, 1, 5, ("A")⟩],
        signalled := false } ∧
    cancel_op none [⟨2, 1, 1, 5, ("A")⟩] 1 =
      { outcome := CancelOutcome.alreadyCancelled, list := [⟨2, 1, 1, 5, ("A")⟩],
        signalled := false } := by
  refine ⟨?_, ?_, ?_, ?_⟩
  · exact (cancel_semantics_under_null_read [] [] [] ⟨2, 1, 0, 5, ("A")⟩ 1 none).1 (by simp)
  · exact (cancel_semantics_under_null_read [] [] [] ⟨2, 1, 3, 5, ("A")⟩ 1 none).2.1
      (by simp) rfl (by norm_num)
  · exact ((cancel_semantics_under_null_read [] [] [] ⟨2, 1, 0, 5, ("A")⟩ 1 none).2.2
      (by simp) rfl rfl).1
  · exact ((cancel_semantics_under_null_read [] [] [] ⟨2, 1, 0, 5, ("A")⟩ 1 none).2.2
      (by simp) rfl rfl).2

/-- Claim C8, counterexample: in `new_alarm_cond.c` the cancel branch of
`main` (lines 240-253) contains no `pthread_cond_signal` call at all — a
successful cancel of a pending entry sets the flag and does not wake the
alarm thread, contradicting the claimed unconditional wake. -/
theorem successful_cancel_does_not_signal :
    cancel_op none [⟨2, 1, 0, 5, ("A")⟩] 1 =
      { outcome := CancelOutcome.cancelled, list := [⟨2, 1, 1, 5, ("A")⟩],
        signalled := false } := by decide

/-- Claim C8, amended: only the `New_Alarm_Cond.c` variant signals the
condition variable on a successful cancel (its line 268); the cancel
branch of `new_alarm_cond.c` never signals, on any path. -/
theorem cancel_signalling_by_variant (g : Option alarm_t) (l : List alarm_t) (m : Int)
    (g2 : Option alarm2_t) (l1 l2 : List alarm2_t) (x : alarm2_t) (m2 : Int) :
    (cancel_op g l m).signalled = false ∧
    ((∀ y ∈ l1, y.message_number ≠ m2) → x.message_number = m2 → x.cancellable = 0 →
        cancel_op2 g2 (l1 ++ x :: l2) m2 =
          { outcome := CancelOutcome.cancelled,
            list := l1 ++ { x with cancellable := 1 } :: l2, signalled := true }) := by
  constructor
  · unfold cancel_op
    cases readPtr g (get_alarm_at l m) with
    | none => rfl
    | some a =>
        dsimp only
        split <;> rfl
  · intro h1 hx hc
    unfold cancel_op2
    rw [get_alarm_at2_append_ret l1 l2 x m2 h1 hx]
    simp only [readPtr]
    rw [if_neg (by omega), replace_first2_append l1 l2 x m2 _ h1 hx]
    have h2 : x.cancellable + 1 = 1 := by omega
    rw [h2]

/-- Claim C8, witness: the signalling contrast at concrete inputs — a
successful `new_alarm_cond.c` cancel without a signal, and a successful
`New_Alarm_Cond.c` cancel with one. -/
theorem cancel_signalling_by_variant_witness :
    (cancel_op none [⟨2, 1, 0, 5, ("C")⟩] 1).signalled = false ∧
    cancel_op2 none [⟨2, 1, 0, 0, 5, ("C")⟩] 1 =
      { outcome := CancelOutcome.cancelled, list := [⟨2, 1, 1, 0, 5, ("C")⟩],
        signalled := true } := by
  refine ⟨?_, ?_⟩
  · exact (cancel_signalling_by_variant none [⟨2, 1, 0, 5, ("C")⟩] 1 none [] []
      ⟨2, 1, 0, 0, 5, ("C")⟩ 1).1
  · exact (cancel_signalling_by_variant none [⟨2, 1, 0, 5, ("C")⟩] 1 none [] []
      ⟨2, 1, 0, 0, 5, ("C")⟩ 1).2 (by simp) rfl rfl

/-- Claim C6, counterexample: a submit that replaces pending entry id 1
(due at 20) with delay 1 at time 0 — while the alarm thread waits with
`current_alarm = 10` — rewrites the entry to be due at 1.  Insert's
wake-on-earlier condition (`current_alarm == 0 || time < current_alarm`,
here `1 < 10` with `10 ≠ 0`) holds, yet the resulting state keeps
`sigCount = 0` and `current_alarm = 10`: `find_and_replace` contains no
`pthread_cond_signal` and no `current_alarm` update, so replace does not
trigger the claimed wake condition; nor does this variant's `alarm_t` even
have a `replaced` flag to set. -/
theorem replace_earlier_due_without_signal :
    step none
        { alarm_list := [⟨20, 1, 0, 20, ("A")⟩], current_alarm := 10,
          phase := Phase.waiting ⟨10, 2, 0, 10, ("W")⟩, now := 0, fired := [], sigCount := 0 }
        (Event.submit 1 1 ("B")) =
      some
        { alarm_list := [⟨1, 1, 0, 1, ("B")⟩], current_alarm := 10,
          phase := Phase.waiting ⟨10, 2, 0, 10, ("W")⟩, now := 0, fired := [],
          sigCount := 0 } ∧
    (1 : Int) < 10 ∧
    decide ((10 : Int) = 0) = false := by
  refine ⟨by decide, by decide, by decide⟩

/-- Claim C6, amended: replace mutates the existing entry's
`seconds`/`due_at`/`message` in place, keeping its position (the list stays
in its id order, which replacement cannot disturb); the `New_Alarm_Cond.c`
variant also sets `replaced = 1` (the `new_alarm_cond.c` entry has no such
field); and neither variant signals the consumer — a submit hitting the
replace path leaves `sigCount` untouched. -/
theorem replace_updates_in_place_and_never_signals
    (na : alarm2_t) (now : Int) (l1 l2 : List alarm2_t) (x : alarm2_t)
    (h1 : ∀ y ∈ l1, y.message_number ≠ na.message_number)
    (hx : x.message_number = na.message_number)
    (s : SysState) (sec id : Int) (msg : String)
    (hs : 0 < sec) (hi : 0 < id)
    (hex : message_id_exists none s.alarm_list id ≠ 0) :
    find_and_replace2 na now (l1 ++ x :: l2) =
      l1 ++ { x with seconds := na.seconds, time := now + na.seconds, replaced := 1,
                     message := na.message } :: l2 ∧
    (l1 ++ { x with seconds := na.seconds, time := now + na.seconds, replaced := 1,
                     message := na.message } :: l2).map alarm2_t.message_number =
      (l1 ++ x :: l2).map alarm2_t.message_number ∧
    (step none s (Event.submit sec id msg)).map SysState.sigCount = some s.sigCount := by
  refine ⟨?_, ?_, ?_⟩
  · unfold find_and_replace2
    exact replace_first2_append l1 l2 x na.message_number _ h1 hx
  · simp
  · show Option.map SysState.sigCount
        (if 0 < sec ∧ 0 < id then
          if message_id_exists none s.alarm_list id = 0 then
            let r := alarm_insert (mkAlarm sec id msg s.now) s.alarm_list s.current_alarm
            some { s with alarm_list := r.list, current_alarm := r.current_alarm,
                          sigCount := s.sigCount + (if r.signalled then 1 else 0) }
          else
            some { s with alarm_list :=
              find_and_replace (mkAlarm sec id msg s.now) s.now s.alarm_list }
        else some s) = some s.sigCount
    rw [if_pos ⟨hs, hi⟩, if_neg hex]
    rfl

/-- Claim C6, witness: the amended replace semantics at a concrete
one-entry registry and a concrete submit that hits the replace path. -/
theorem replace_updates_in_place_witness :
    find_and_replace2 ⟨1, 1, 0, 0, 99, ("B")⟩ 0 [⟨9, 1, 0, 0, 50, ("A")⟩] =
      [⟨1, 1, 0, 1, 0 + 1, ("B")⟩] ∧
    ([⟨1, 1, 0, 1, 0 + 1, ("B")⟩] : List alarm2_t).map alarm2_t.message_number =
      ([⟨9, 1, 0, 0, 50, ("A")⟩] : List alarm2_t).map alarm2_t.message_number ∧
    (step none
        { alarm_list := [⟨20, 1, 0, 20, ("A")⟩], current_alarm := 10,
          phase := Phase.waiting ⟨10, 2, 0, 10, ("W")⟩, now := 0, fired := [],
          sigCount := 0 }
        (Event.submit 1 1 ("B"))).map SysState.sigCount = some 0 :=
  replace_updates_in_place_and_never_signals ⟨1, 1, 0, 0, 99, ("B")⟩ 0 [] []
    ⟨9, 1, 0, 0, 50, ("A")⟩ (by simp) rfl
    { alarm_list := [⟨20, 1, 0, 20, ("A")⟩], current_alarm := 10,
      phase := Phase.waiting ⟨10, 2, 0, 10, ("W")⟩, now := 0, fired := [], sigCount := 0 }
    1 1 ("B") (by norm_num) (by norm_num) (by decide)

/-- Claim C2, counterexample: submit id 1 delay 10 and id 2 delay 1 at time
0, then let the alarm thread run.  It dequeues the list head — id 1, the
smaller id — waits until time 10 and fires it, then fires id 2 (due at 1)
afterwards.  The sink sees `(due 10, id 1)` before `(due 1, id 2)`: the
first emission does not have the earlier `(due_at, id)`, refuting the
claimed fire order. -/
theorem fires_out_of_due_order :
    (run none initState
        ([Event.submit 10 1 ("A"), Event.submit 1 2 ("B"), Event.take] ++
          List.replicate 10 Event.tick ++ [Event.wake, Event.take])).map
      (fun s => s.fired.map (fun a => (a.time, a.message_number))) =
    some [(10, 1), (1, 2)] ∧
    decide ((10 : Int) < 1 ∨ ((10 : Int) = 1 ∧ (1 : Int) ≤ 2)) = false := by
  refine ⟨by decide, by decide⟩

/-- Claim C2, amended: the consumer dequeues fires in ascending
`message_number` order, not `(due_at, id)` order — each `take` removes the
list head, which under the id ordering the list maintains is the pending
entry with the smallest id; its due time plays no role in the choice. -/
theorem take_dequeues_min_id (g : Option alarm_t) (s : SysState) (a : alarm_t)
    (rest : List alarm_t) (hp : s.phase = Phase.idle) (hl : s.alarm_list = a :: rest)
    (ho : idOrdered s.alarm_list) :
    (∀ b ∈ s.alarm_list, a.message_number ≤ b.message_number) ∧
    ((s.now < a.time ∧ step g s Event.take =
        some { s with alarm_list := rest, phase := Phase.waiting a,
                      current_alarm := a.time }) ∨
     (a.time ≤ s.now ∧ step g s Event.take =
        some { s with alarm_list := rest, fired := s.fired ++ [a],
                      current_alarm := 0 })) := by
  constructor
  · intro b hb
    rw [hl] at hb ho
    rcases List.mem_cons.mp hb with hb | hb
    · exact hb ▸ le_refl _
    · exact (List.pairwise_cons.mp ho).1 b hb
  · have hstep : step g s Event.take =
        (match s.phase, s.alarm_list with
         | Phase.idle, a :: rest =>
             if a.time > s.now then
               some { s with alarm_list := rest, phase := Phase.waiting a,
                             current_alarm := a.time }
             else
               some { s with alarm_list := rest, fired := s.fired ++ [a],
                             current_alarm := 0 }
         | _, _ => none) := rfl
    rw [hstep, hp, hl]
    by_cases ht : a.time > s.now
    · left
      refine ⟨ht, ?_⟩
      simp only [if_pos ht]
    · right
      refine ⟨by omega, ?_⟩
      simp only [if_neg ht]

/-- Claim C2, witness: the amended dequeue order at a concrete two-entry
registry where id 1 is due at 10 and id 2 at 1 — the thread takes id 1. -/
theorem take_dequeues_min_id_witness :
    (∀ b ∈ ([⟨10, 1, 0, 10, ("A")⟩, ⟨1, 2, 0, 1, ("B")⟩] : List alarm_t),
        (1 : Int) ≤ b.message_number) ∧
    (((0 : Int) < 10 ∧ step none
        { alarm_list := [⟨10, 1, 0, 10, ("A")⟩, ⟨1, 2, 0, 1, ("B")⟩], current_alarm := 0,
          phase := Phase.idle, now := 0, fired := [], sigCount := 0 } Event.take =
        some
          { alarm_list := [⟨1, 2, 0, 1, ("B")⟩], current_alarm := 10,
            phase := Phase.waiting ⟨10, 1, 0, 10, ("A")⟩, now := 0, fired := [],
            sigCount := 0 }) ∨
     ((10 : Int) ≤ 0 ∧ step none
        { alarm_list := [⟨10, 1, 0, 10, ("A")⟩, ⟨1, 2, 0, 1, ("B")⟩], current_alarm := 0,
          phase := Phase.idle, now := 0, fired := [], sigCount := 0 } Event.take =
        some
          { alarm_list := [⟨1, 2, 0, 1, ("B")⟩], current_alarm := 0,
            phase := Phase.idle, now := 0, fired := [⟨10, 1, 0, 10, ("A")⟩],
            sigCount := 0 })) :=
  take_dequeues_min_id none
    { alarm_list := [⟨10, 1, 0, 10, ("A")⟩, ⟨1, 2, 0, 1, ("B")⟩], current_alarm := 0,
      phase := Phase.idle, now := 0, fired := [], sigCount := 0 }
    ⟨10, 1, 0, 10, ("A")⟩ [⟨1, 2, 0, 1, ("B")⟩] rfl rfl (by decide)

/-- Claim C5, counterexample: submit id 1 delay 10 at time 0; the alarm
thread dequeues it and waits.  At time 1 submit id 1 delay 5: the duplicate
check walks `alarm_list`, which no longer holds the dequeued entry, so a
fresh id-1 entry is inserted; the insert signals, the woken thread finds
`current_alarm` changed and re-inserts the entry it held.  The registry now
holds two pending entries with id 1, refuting the claimed at-most-one
pending entry per id. -/
theorem dequeued_entry_allows_duplicate_pending_id :
    (run none initState
        [Event.submit 10 1 ("A"), Event.take, Event.tick, Event.submit 5 1 ("B"),
         Event.wake]).map
      (fun s => s.alarm_list.countP (fun a => a.message_number == 1)) =
    some 2 ∧
    decide ((2 : Nat) ≤ 1) = false := by
  refine ⟨by decide, by decide⟩

/-- Claim C5, amended: a submit whose id denotes an entry currently in
`alarm_list` mutates that entry in place — new `seconds`, `due_at = now +
delay`, new message, same `message_number` and same id sequence, so no
second entry is created and nothing else (phase, `current_alarm`, signal
count, sink) changes.  The at-most-one-pending-per-id consequence fails
only through the dequeued-entry window shown in the counterexample. -/
theorem submit_existing_id_replaces_in_place
    (s : SysState) (sec id : Int) (msg : String) (l1 l2 : List alarm_t) (x : alarm_t)
    (hl : s.alarm_list = l1 ++ x :: l2) (hx : x.message_number = id)
    (h1 : ∀ y ∈ l1, y.message_number ≠ id) (hs : 0 < sec) (hi : 0 < id) :
    step none s (Event.submit sec id msg) =
      some { s with alarm_list :=
        l1 ++ { x with seconds := sec, time := s.now + sec, message := msg } :: l2 } ∧
    (l1 ++ { x with seconds := sec, time := s.now + sec, message := msg } :: l2).map
        alarm_t.message_number = s.alarm_list.map alarm_t.message_number := by
  have hget : get_alarm_at s.alarm_list id = CRet.ret x := by
    rw [hl]
    exact get_alarm_at_append_ret l1 l2 x id h1 hx
  have hmie : message_id_exists none s.alarm_list id ≠ 0 := by
    unfold message_id_exists
    rw [hget]
    simp [readPtr]
  constructor
  · have hfr : find_and_replace (mkAlarm sec id msg s.now) s.now s.alarm_list =
        l1 ++ { x with seconds := sec, time := s.now + sec, message := msg } :: l2 := by
      unfold find_and_replace
      rw [hl]
      exact replace_first_append l1 l2 x _ _ h1 hx
    show (if 0 < sec ∧ 0 < id then
        if message_id_exists none s.alarm_list id = 0 then
          let r := alarm_insert (mkAlarm sec id msg s.now) s.alarm_list s.current_alarm
          some { s with alarm_list := r.list, current_alarm := r.current_alarm,
                        sigCount := s.sigCount + (if r.signalled then 1 else 0) }
        else
          some { s with alarm_list :=
            find_and_replace (mkAlarm sec id msg s.now) s.now s.alarm_list }
      else some s) = _
    rw [if_pos ⟨hs, hi⟩, if_neg hmie, hfr]
  · rw [hl]
    simp

/-- Claim C5, witness: the amended in-place replace at a concrete one-entry
registry: submit of pending id 1 rewrites the entry, keeps its id, and adds
nothing. -/
theorem submit_existing_id_replaces_in_place_witness :
    step none
        { alarm_list := [⟨9, 1, 0, 50, ("old")⟩], current_alarm := 10,
          phase := Phase.waiting ⟨10, 2, 0, 10, ("W")⟩, now := 3, fired := [],
          sigCount := 0 }
        (Event.submit 2 1 ("new")) =
      some
        { alarm_list := [⟨2, 1, 0, 3 + 2, ("new")⟩], current_alarm := 10,
          phase := Phase.waiting ⟨10, 2, 0, 10, ("W")⟩, now := 3, fired := [],
          sigCount := 0 } ∧
    ([⟨2, 1, 0, 3 + 2, ("new")⟩] : List alarm_t).map alarm_t.message_number =
      ([⟨9, 1, 0, 50, ("old")⟩] : List alarm_t).map alarm_t.message_number :=
  submit_existing_id_replaces_in_place
    { alarm_list := [⟨9, 1, 0, 50, ("old")⟩], current_alarm := 10,
      phase := Phase.waiting ⟨10, 2, 0, 10, ("W")⟩, now := 3, fired := [], sigCount := 0 }
    2 1 ("new") [] [] ⟨9, 1, 0, 50, ("old")⟩ rfl rfl (by simp) (by norm_num) (by norm_num)

/-- Claim C3, counterexample: entry A (id 1, delay 5) is inserted and the
thread waits on it; entry B (id 2, delay 1) is then inserted.  The insert
does signal and the thread does re-derive its target — but the target is
the smallest-id head, which is A again, so the thread waits until time 5,
fires A first, and only then fires B, whose deadline (time 1) it slept
past.  B does not fire before A, refuting the claim's conclusion. -/
theorem earlier_insert_fires_after_waited_entry :
    (run none initState
        ([Event.submit 5 1 ("A"), Event.take, Event.submit 1 2 ("B"), Event.wake,
          Event.take] ++ List.replicate 5 Event.tick ++ [Event.wake, Event.take])).map
      (fun s => s.fired.map (fun a => (a.time, a.message_number))) =
    some [(5, 1), (1, 2)] ∧
    (1 : Int) < 5 := by
  refine ⟨by decide, by decide⟩

/-- Reduction of a `wake` step whose `current_alarm` no longer matches the
held entry's time: the entry is re-inserted and the loop restarts. -/
theorem step_wake_waiting (g : Option alarm_t) (s : SysState) (a : alarm_t)
    (hp : s.phase = Phase.waiting a) (hne : s.current_alarm ≠ a.time) :
    step g s Event.wake =
      some { s with alarm_list := (alarm_insert a s.alarm_list s.current_alarm).list,
                    phase := Phase.idle, current_alarm := 0,
                    sigCount := s.sigCount +
                      (if (alarm_insert a s.alarm_list s.current_alarm).signalled
                       then 1 else 0) } := by
  have hstep : step g s Event.wake =
      (match s.phase with
       | Phase.waiting b =>
           if s.current_alarm ≠ b.time then
             let r := alarm_insert b s.alarm_list s.current_alarm
             some { s with alarm_list := r.list, phase := Phase.idle, current_alarm := 0,
                           sigCount := s.sigCount + (if r.signalled then 1 else 0) }
           else if b.time ≤ s.now then
             some { s with fired := s.fired ++ [b], phase := Phase.idle,
                           current_alarm := 0 }
           else none
       | Phase.idle => none) := rfl
  rw [hstep, hp]
  simp only [if_pos hne]

/-- Claim C3, amended: an insert of an entry due earlier than the deadline
the thread is waiting on does signal (`time < current_alarm`), updates
`current_alarm`, and the thread's next wake re-inserts the held entry and
re-derives its target from the list — but the re-derived target is the
smallest-id entry, so the earlier-due entry is only favoured when its id is
also smaller; the counterexample shows the thread otherwise re-waits on the
old entry and sleeps past the new one's deadline. -/
theorem earlier_insert_signals_and_worker_rederives
    (s : SysState) (a : alarm_t) (sec id : Int) (msg : String)
    (hw : s.phase = Phase.waiting a) (hc : s.current_alarm = a.time)
    (hs : 0 < sec) (hi : 0 < id)
    (habs : ∀ y ∈ s.alarm_list, y.message_number ≠ id)
    (hearlier : s.now + sec < a.time) :
    ∃ s2 s3,
      step none s (Event.submit sec id msg) = some s2 ∧
      s2.sigCount = s.sigCount + 1 ∧
      s2.current_alarm = s.now + sec ∧
      s2.phase = Phase.waiting a ∧
      step none s2 Event.wake = some s3 ∧
      s3.phase = Phase.idle ∧
      a ∈ s3.alarm_list ∧
      s3.fired = s.fired := by
  have hmie : message_id_exists none s.alarm_list id = 0 := by
    unfold message_id_exists
    rw [get_alarm_at_eq_undef s.alarm_list id habs]
    rfl
  have hins : alarm_insert (mkAlarm sec id msg s.now) s.alarm_list s.current_alarm =
      { list := insert_sorted (mkAlarm sec id msg s.now) s.alarm_list,
        current_alarm := s.now + sec, signalled := true } := by
    unfold alarm_insert
    rw [if_pos (Or.inr (show (mkAlarm sec id msg s.now).time < s.current_alarm by
      rw [hc]; exact hearlier))]
    rfl
  have hws := step_wake_waiting none
    { s with alarm_list := insert_sorted (mkAlarm sec id msg s.now) s.alarm_list,
             current_alarm := s.now + sec, sigCount := s.sigCount + 1 }
    a hw (ne_of_lt hearlier)
  refine ⟨{ s with
      alarm_list := insert_sorted (mkAlarm sec id msg s.now) s.alarm_list,
      current_alarm := s.now + sec,
      sigCount := s.sigCount + 1 }, _, ?_, rfl, rfl, hw, hws, rfl, ?_, rfl⟩
  · show (if 0 < sec ∧ 0 < id then
        if message_id_exists none s.alarm_list id = 0 then
          let r := alarm_insert (mkAlarm sec id msg s.now) s.alarm_list s.current_alarm
          some { s with alarm_list := r.list, current_alarm := r.current_alarm,
                        sigCount := s.sigCount + (if r.signalled then 1 else 0) }
        else
          some { s with alarm_list :=
            find_and_replace (mkAlarm sec id msg s.now) s.now s.alarm_list }
      else some s) = _
    rw [if_pos ⟨hs, hi⟩, if_pos hmie, hins]
    rfl
  · show a ∈ (alarm_insert a
        (insert_sorted (mkAlarm sec id msg s.now) s.alarm_list) (s.now + sec)).list
    rw [alarm_insert_list]
    exact mem_insert_sorted_self _ _

/-- Claim C3, witness: the amended signal-and-re-derive behaviour at a
concrete state — thread waiting on id 1 (due 5), submit of id 2 with delay
1 at time 0. -/
theorem earlier_insert_signals_and_worker_rederives_witness :
    ∃ s2 s3,
      step none
          { alarm_list := [], current_alarm := 5,
            phase := Phase.waiting ⟨5, 1, 0, 5, ("A")⟩, now := 0, fired := [],
            sigCount := 1 } (Event.submit 1 2 ("B")) = some s2 ∧
      s2.sigCount = 1 + 1 ∧
      s2.current_alarm = 0 + 1 ∧
      s2.phase = Phase.waiting ⟨5, 1, 0, 5, ("A")⟩ ∧
      step none s2 Event.wake = some s3 ∧
      s3.phase = Phase.idle ∧
      (⟨5, 1, 0, 5, ("A")⟩ : alarm_t) ∈ s3.alarm_list ∧
      s3.fired = [] :=
  earlier_insert_signals_and_worker_rederives
    { alarm_list := [], current_alarm := 5, phase := Phase.waiting ⟨5, 1, 0, 5, ("A")⟩,
      now := 0, fired := [], sigCount := 1 }
    ⟨5, 1, 0, 5, ("A")⟩ 1 2 ("B") rfl rfl (by norm_num) (by norm_num) (by simp)
    (by norm_num)

example :
    (alarm_insert { seconds := 1, message_number := 2, cancellable := 0, time := 1,
                    message := "B" }
      [{ seconds := 10, message_number := 1, cancellable := 0, time := 10, message := "A" }]
      10).list.map alarm_t.message_number = [1, 2] := rfl
